import Mathlib

/-!
Shallow embedding of the AuditReadinessAI core (api/main.py, api/retrieval.py,
api/agent_report.py) and proofs about it.

Modelling conventions:
* Python floats are modelled as exact rationals (`ℚ`); all arithmetic the
  scoring code performs on them is decimal-exact at the granularity the
  claims speak about.
* Timestamps (`collected_at`, `now`, `resolved_at`, `created_at`) are
  modelled as integers at day granularity, so `timedelta.days` becomes
  integer subtraction.
* Database rows become records; a table becomes a `List` of rows in
  insertion order; a SQLAlchemy `query(...).update(...)` becomes a `map`
  and an `add` becomes an append.
* External collaborators (sklearn's TF-IDF cosine similarity, the
  sentence-transformers encoder, the OpenAI client) are passed in as
  function / outcome parameters: the repository's own logic is everything
  around those calls.
-/

namespace AuditReadiness

/-- An `Artifact` row (api/models.py): `source` is `"github"` or `"upload"`,
`collected_at` a timestamp (modelled in days; `compute_scores` guards for
`None`, so we keep it optional). -/
structure Artifact where
  id : Nat
  source : String
  name : String
  collected_at : Option Int
deriving DecidableEq

/-- Coverage branch of `compute_scores` (api/main.py lines 77-81). -/
def coverageScore (linkedCount : Nat) (checklistCount : Int) : ℚ :=
  if checklistCount ≤ 0 then 0
  else min 100 (((linkedCount : ℚ) / (checklistCount : ℚ)) * 100)

/-- Freshness branch of `compute_scores` (api/main.py lines 83-100):
maximum `collected_at` among linked artifacts that have one; age in whole
days against `now`; ≤ 90 → 100, ≤ 180 → 50, else 0. -/
def freshnessScore (linked : List Artifact) (now : Int) : ℚ :=
  if linked = [] then 0
  else
    match (linked.filterMap (fun a => a.collected_at)).max? with
    | none => 0
    | some newest =>
      let age_days := now - newest
      if age_days ≤ 90 then 100
      else if age_days ≤ 180 then 50
      else 0

/-- Per-artifact credibility weight (api/main.py line 108):
`1.0 if a.source == "github" else 0.7`. -/
def artifactWeight (a : Artifact) : ℚ :=
  if a.source = "github" then 1 else 7/10

/-- Credibility branch of `compute_scores` (api/main.py lines 102-109). -/
def credibilityScore (linked : List Artifact) : ℚ :=
  if linked = [] then 0
  else ((linked.map artifactWeight).sum / linked.length) * 100

/-- `compute_scores` (api/main.py lines 76-112): returns
(coverage, freshness, credibility, readiness). -/
def compute_scores (linked : List Artifact) (checklistCount : Int) (now : Int) :
    ℚ × ℚ × ℚ × ℚ :=
  let coverage_pct := coverageScore linked.length checklistCount
  let freshness_score := freshnessScore linked now
  let source_credibility := credibilityScore linked
  let readiness_score :=
    1/2 * coverage_pct + 3/10 * freshness_score + 1/5 * source_credibility
  (coverage_pct, freshness_score, source_credibility, readiness_score)

/-- The `control_artifact_links` table as a list of (control_id, artifact_id)
pairs in insertion order; `link_artifact` (api/main.py lines 247-265) checks
for an existing row for the pair and inserts only when absent. -/
def link_artifact (links : List (Nat × Nat)) (control_id artifact_id : Nat) :
    List (Nat × Nat) :=
  if (control_id, artifact_id) ∈ links then links
  else links ++ [(control_id, artifact_id)]

/-- A `gaps` table row (api/models.py): a gap is open iff `resolved_at` is null. -/
structure GapRow where
  control_id : Nat
  severity : String
  reason : String
  created_at : Int
  resolved_at : Option Int
deriving DecidableEq

/-- A `control_scores` table row (api/models.py). -/
structure ScoreRow where
  control_id : Nat
  coverage_pct : ℚ
  freshness_score : ℚ
  source_credibility : ℚ
  readiness_score : ℚ
  computed_at : Int
deriving DecidableEq

/-- The persistent state touched by the `compute-score` endpoint. -/
structure ScoreGapState where
  scores : List ScoreRow
  gaps : List GapRow
deriving DecidableEq

/-- The bulk update in api/main.py lines 295-298: set `resolved_at = now` on
every row of this control whose `resolved_at` is null. -/
def resolveOpenGaps (gaps : List GapRow) (control_id : Nat) (now : Int) : List GapRow :=
  gaps.map (fun g =>
    if g.control_id = control_id ∧ g.resolved_at = none
    then { g with resolved_at := some now }
    else g)

/-- The gap inserts in api/main.py lines 300-305, in program order. -/
def newGaps (control_id : Nat) (coverage_pct freshness_score source_credibility : ℚ)
    (hasLinked : Bool) (now : Int) : List GapRow :=
  (if coverage_pct < 100 then
    [⟨control_id, "High", "Missing evidence: coverage below 100%", now, none⟩] else [])
  ++ (if freshness_score < 100 then
    [⟨control_id, "Medium", "Evidence may be stale (older than 90 days)", now, none⟩] else [])
  ++ (if source_credibility < 80 ∧ hasLinked then
    [⟨control_id, "Low", "Evidence relies heavily on manual uploads vs system sources", now, none⟩]
    else [])

/-- The `compute_score` endpoint (api/main.py lines 268-310): append one
score snapshot, resolve all currently-open gaps of the control, then insert
the gaps implied by the fresh scores. -/
def compute_score_endpoint (st : ScoreGapState) (control_id : Nat)
    (linked : List Artifact) (checklistCount : Int) (now : Int) : ScoreGapState :=
  let s := compute_scores linked checklistCount now
  { scores := st.scores ++ [⟨control_id, s.1, s.2.1, s.2.2.1, s.2.2.2, now⟩],
    gaps := resolveOpenGaps st.gaps control_id now
      ++ newGaps control_id s.1 s.2.1 s.2.2.1 (!linked.isEmpty) now }

/-- Predicate for "open gap of this control". -/
def isOpenGapOf (control_id : Nat) (g : GapRow) : Bool :=
  (g.control_id == control_id) && g.resolved_at.isNone

/-- Deduplication by first occurrence; `seen` models a Python `set`
(only membership matters). -/
def firstDedup : List Nat → List Nat → List Nat
  | [], _ => []
  | x :: xs, seen =>
    if x ∈ seen then firstDedup xs seen else x :: firstDedup xs (x :: seen)

/-- The fusion loop of `hybrid_retrieve` (api/retrieval.py lines 173-180):
walk `kw + em`, append unseen ids, and break as soon as `out` has `k`
elements (the break test runs at the end of every loop body in the source,
including iterations that hit a duplicate). -/
def fuseGo (k : Nat) : List Nat → List Nat → List Nat → List Nat
  | [], _, out => out
  | aid :: rest, seen, out =>
    let seen' := if aid ∈ seen then seen else aid :: seen
    let out' := if aid ∈ seen then out else out ++ [aid]
    if k ≤ out'.length then out' else fuseGo k rest seen' out'

/-- `hybrid_retrieve`'s fusion of the two candidate lists
(api/retrieval.py lines 163-182), with the two retriever outputs passed in. -/
def hybrid_fuse (kw em : List Nat) (k : Nat) : List Nat :=
  fuseGo k (kw ++ em) [] []

/-- An `artifact_chunks` table row (api/models.py via api/retrieval.py's
`load_chunks`). -/
structure Chunk where
  id : Nat
  artifact_id : Nat
  chunk_index : Nat
  text : String
deriving DecidableEq

instance : Inhabited Chunk := ⟨⟨0, 0, 0, ""⟩⟩

/-- Stable insertion step: `x` goes before the first element `y` with
`c x y` (so for a "may precede" comparator the sort below is stable). -/
def insertStable (c : α → α → Bool) (x : α) : List α → List α
  | [] => [x]
  | y :: rest => if c x y then x :: y :: rest else y :: insertStable c x rest

/-- Stable sort by a "may precede" comparator: models CPython's stable
`sorted` / `list.sort`, and NumPy's `argsort` tie behaviour on the
small arrays this code sorts. -/
def sortStable (c : α → α → Bool) (l : List α) : List α :=
  l.foldr (insertStable c) []

/-- Descending "may precede" comparator on a rational key: `x` may precede
`y` iff `key y ≤ key x`, so ties keep original order (stability). -/
def descBy (key : α → ℚ) (x y : α) : Bool := key y ≤ key x

/-- `np.argsort(-sims)`: chunk indices by descending similarity
(api/retrieval.py line 64/144); tie order is the stable one. -/
def argsortDesc (sims : List ℚ) : List Nat :=
  sortStable (descBy (fun i => sims.getD i 0)) (List.range sims.length)

/-- One step of the Python dict update
`artifact_scores[aid] = max(artifact_scores.get(aid, 0.0), score)`:
an insertion-ordered association list, updated in place. -/
def insertMax : List (Nat × ℚ) → Nat → ℚ → List (Nat × ℚ)
  | [], a, s => [(a, max 0 s)]
  | (b, v) :: rest, a, s =>
    if b = a then (b, max v s) :: rest else (b, v) :: insertMax rest a s

/-- The aggregation loop over ranked chunk indices
(api/retrieval.py lines 67-72 and 147-152). -/
def foldScores : List (Nat × ℚ) → List (Nat × ℚ) → List (Nat × ℚ)
  | [], acc => acc
  | (a, s) :: rest, acc => foldScores rest (insertMax acc a s)

/-- Running max of the similarities attached to key `x`, seeded at `base`:
the value the aggregation dict ends up holding for that key. -/
def accValue (pairs : List (Nat × ℚ)) (x : Nat) (base : ℚ) : ℚ :=
  ((pairs.filter (fun p => p.1 == x)).map (fun p => p.2)).foldl max base

/-- Chunk-to-artifact score aggregation (api/retrieval.py lines 63-72):
rank all chunk indices by descending similarity, keep the first
`min(len, 200)`, and fold each `(artifact_id, sim)` into the dict. -/
def aggregateScores (chunks : List Chunk) (sims : List ℚ) : List (Nat × ℚ) :=
  let ranked := argsortDesc sims
  let top_n := min ranked.length 200
  foldScores
    ((ranked.take top_n).map
      (fun i => ((chunks.getD i default).artifact_id, sims.getD i 0)))
    []

/-- `sorted(artifact_scores.items(), key=lambda x: x[1], reverse=True)[:k]`
projected to ids (api/retrieval.py lines 74-75 and 154-155). -/
def topKArtifacts (scores : List (Nat × ℚ)) (k : Nat) : List Nat :=
  ((sortStable (descBy (fun p : Nat × ℚ => p.2)) scores).take k).map (fun p => p.1)

/-- Python's `str.strip()`, executable (drop unicode whitespace from both
ends); `String.trim` is extensionally the same but does not reduce in the
kernel. -/
def pyStrip (s : String) : String :=
  ⟨((s.data.dropWhile Char.isWhitespace).reverse.dropWhile Char.isWhitespace).reverse⟩

/-- `keyword_retrieve` (api/retrieval.py lines 46-77). The TF-IDF cosine
similarity of the query against every chunk text — computed by sklearn's
`TfidfVectorizer` + `cosine_similarity`, an external library — is passed in
as the `tfidf` collaborator; everything else is the repository's own logic.
The query is taken as input (built upstream by `control_query_text`). -/
def keyword_retrieve (tfidf : String → List String → List ℚ)
    (query : String) (chunks : List Chunk) (k : Nat) : List Nat :=
  let q := pyStrip query
  if q = "" then []
  else if chunks = [] then []
  else topKArtifacts (aggregateScores chunks (tfidf q (chunks.map (fun c => c.text)))) k

/-- Outcome of one attempt to construct the sentence-transformers model
(the body of the `try` in `_get_model`, api/retrieval.py lines 99-115). -/
inductive LoadOutcome where
  | ok
  | err
deriving DecidableEq

/-- The module-level globals `_model` / `_model_load_failed`
(api/retrieval.py lines 83-84). -/
structure ModelState where
  model : Option Unit
  load_failed : Bool
deriving DecidableEq

/-- `_get_model` (api/retrieval.py lines 86-115) as a state transition:
returns (model-or-None, new globals, whether the load path was entered). -/
def get_model (s : ModelState) (attempt : LoadOutcome) :
    Option Unit × ModelState × Bool :=
  if s.model.isSome then (s.model, s, false)
  else if s.load_failed then (none, s, false)
  else
    match attempt with
    | .ok => (some (), { model := some (), load_failed := s.load_failed }, true)
    | .err => (none, { s with load_failed := true }, true)

/-- `embedding_retrieve` (api/retrieval.py lines 118-157): the dense
encoder (an external sentence-transformers model) is the `encode`
collaborator; if `_get_model` yields None the call returns `[]`. -/
def embedding_retrieve (encode : String → List String → List ℚ)
    (query : String) (chunks : List Chunk) (k : Nat)
    (s : ModelState) (attempt : LoadOutcome) :
    List Nat × ModelState × Bool :=
  match get_model s attempt with
  | (none, s', entered) => ([], s', entered)
  | (some _, s', entered) =>
    ((let q := pyStrip query
      if q = "" then []
      else if chunks = [] then []
      else topKArtifacts (aggregateScores chunks (encode q (chunks.map (fun c => c.text)))) k),
     s', entered)

/-- A process-lifetime trace: run a sequence of semantic-ranker calls,
threading the module globals; also reports whether any call entered the
model-load path. -/
def runSemanticCalls :
    List ((String → List String → List ℚ) × String × List Chunk × Nat × LoadOutcome) →
    ModelState → List (List Nat) × ModelState × Bool
  | [], s => ([], s, false)
  | (enc, q, cs, k, att) :: rest, s =>
    let r := embedding_retrieve enc q cs k s att
    let r' := runSemanticCalls rest r.2.1
    (r.1 :: r'.1, r'.2.1, r.2.2 || r'.2.2)

/-- From the spec's words (§4.2): the artifact-level score is the maximum
similarity across that artifact's chunks (the dict default floors it at 0;
TF-IDF cosines are nonnegative, so the floor is inert). Chunks are scanned
in corpus order. -/
def specArtifactScore (chunks : List Chunk) (sims : List ℚ) (a : Nat) : ℚ :=
  (((List.range chunks.length).filter
      (fun i => (chunks.getD i default).artifact_id == a)).map
    (fun i => sims.getD i 0)).foldl max 0

/-- Artifact ids in order of first appearance in the descending-similarity
chunk ranking: the tie-break the rankers actually implement. -/
def specArtifactOrder (chunks : List Chunk) (sims : List ℚ) : List Nat :=
  firstDedup ((argsortDesc sims).map (fun i => (chunks.getD i default).artifact_id)) []

/-- The ranker as the spec's §4.2 words describe it, with the corrected
tie-break: score each artifact by its max chunk similarity, order by
descending score (ties by first appearance in the chunk ranking, not by
artifact id), truncate to k; empty on empty query or corpus. -/
def spec_retrieve (sim : String → List String → List ℚ)
    (query : String) (chunks : List Chunk) (k : Nat) : List Nat :=
  let q := pyStrip query
  if q = "" then []
  else if chunks = [] then []
  else
    let sims := sim q (chunks.map (fun c => c.text))
    topKArtifacts
      ((specArtifactOrder chunks sims).map
        (fun a => (a, specArtifactScore chunks sims a))) k

/-- A `controls` table row (api/models.py). -/
structure ControlRow where
  id : Nat
  code : String
  title : String
  description : String
deriving DecidableEq

/-- A `checklist_items` table row (api/models.py). -/
structure ChecklistItemRow where
  id : Nat
  control_id : Nat
  text : String
deriving DecidableEq

/-- The database as `generate_control_report` sees it. -/
structure Db where
  controls : List ControlRow
  checklist_items : List ChecklistItemRow
  artifacts : List Artifact
  chunks : List Chunk

/-- Python `s.replace(a, b)` for single-character patterns, executable. -/
def pyReplaceChar (a b : Char) (s : String) : String :=
  ⟨s.data.map (fun c => if c == a then b else c)⟩

/-- Python `s.lower()`, executable (`String.toLower` does not reduce in the
kernel). -/
def pyLower (s : String) : String :=
  ⟨s.data.map Char.toLower⟩

/-- Python `s[:n]`, executable. -/
def pyTake (n : Nat) (s : String) : String :=
  ⟨s.data.take n⟩

/-- Python `s.split()`: split on whitespace, discarding empty tokens. -/
def pySplit (s : String) : List String :=
  ((s.data.splitOnP Char.isWhitespace).filter (fun w => w ≠ [])).map
    (fun w => (⟨w⟩ : String))

/-- Does `hay` start with `pat`? (executable list version) -/
def startsWithL : List Char → List Char → Bool
  | [], _ => true
  | _ :: _, [] => false
  | p :: ps, h :: hs => p == h && startsWithL ps hs

/-- Python's `pat in hay` substring test, executable. -/
def containsL (pat : List Char) : List Char → Bool
  | [] => pat.isEmpty
  | h :: hs => startsWithL pat (h :: hs) || containsL pat hs

/-- Python `kw in hay` on strings. -/
def pyContains (hay kw : String) : Bool :=
  containsL kw.data hay.data

/-- `_pick_best_artifacts_for_item` (api/agent_report.py lines 63-91):
keywords are whitespace tokens of length ≥ 4 of the item text after
mapping `/`, `(`, `)` to spaces; +2 per keyword in the artifact name,
+1 per keyword in the joined snippet text; `scored.sort(reverse=True)`
sorts (score, id) tuples descending lexicographically; keep positive
scores, take `top_n`. -/
def pick_best_artifacts_for_item (item_text : String)
    (artifacts_with_snippets : List (Artifact × List String)) (top_n : Nat) :
    List Nat :=
  let keywords :=
    ((pySplit (pyReplaceChar ')' ' '
        (pyReplaceChar '(' ' ' (pyReplaceChar '/' ' ' item_text)))).filter
      (fun w => 4 ≤ w.length)).map pyLower
  let scored := artifacts_with_snippets.map (fun p =>
    let hay_name := pyLower p.1.name
    let hay_text := pyLower (String.intercalate "\n" p.2)
    (keywords.foldl
      (fun sc kw =>
        sc + (if pyContains hay_name kw then 2 else 0)
           + (if pyContains hay_text kw then 1 else 0)) 0,
     p.1.id))
  let sorted := sortStable
    (fun x y : Nat × Nat => (y.1 < x.1) || ((y.1 == x.1) && (y.2 ≤ x.2))) scored
  ((sorted.filter (fun p => 0 < p.1)).map (fun p => p.2)).take top_n

/-- `_build_prompt` (api/agent_report.py lines 16-60). -/
def build_prompt (control : ControlRow) (checklist_items : List ChecklistItemRow)
    (artifacts_with_snippets : List (Artifact × List String)) : String :=
  let checklist_text :=
    if checklist_items.isEmpty then "- (no checklist items found)"
    else String.intercalate "\n" (checklist_items.map (fun it => "- " ++ it.text))
  let evidence_blocks := artifacts_with_snippets.map (fun p =>
    let joined := String.intercalate "\n\n"
      (p.2.enum.map (fun is => "Snippet " ++ toString (is.1 + 1) ++ ": " ++ is.2))
    "[Artifact " ++ toString p.1.id ++ "] name=" ++ p.1.name
      ++ " source=" ++ p.1.source ++ "\n" ++ joined)
  let evidence_text :=
    if evidence_blocks.isEmpty then "(No evidence snippets available.)"
    else String.intercalate "\n\n" evidence_blocks
  "You are an audit/compliance assistant. Write an SOC 2 evidence narrative for ONE control.\n\n"
    ++ "Rules:\n"
    ++ "- Use ONLY the evidence snippets provided.\n"
    ++ "- Do NOT invent facts. If evidence is missing, say \"Missing evidence\" and list what to collect.\n"
    ++ "- Every factual claim must include a citation like [Artifact 10].\n"
    ++ "- Output must be concise and structured.\n\n"
    ++ "Control:\n"
    ++ "- Code: " ++ control.code ++ "\n"
    ++ "- Title: " ++ control.title ++ "\n"
    ++ "- Description: " ++ control.description ++ "\n\n"
    ++ "Checklist (what evidence auditors expect):\n"
    ++ checklist_text ++ "\n\n"
    ++ "Evidence snippets:\n"
    ++ evidence_text ++ "\n\n"
    ++ "Write the report with these sections:\n"
    ++ "1) Summary (2–4 sentences)\n"
    ++ "2) Evidence mapped to checklist (bullet list; each bullet has citations)\n"
    ++ "3) Gaps / Missing evidence (bullet list)\n"
    ++ "4) Next best actions (3 bullets)"

/-- `_fallback_report` (api/agent_report.py lines 94-141): deterministic
degraded report, pure string building — total by construction. -/
def fallback_report (control : ControlRow) (checklist_items : List ChecklistItemRow)
    (artifacts_with_snippets : List (Artifact × List String)) (reason : String) :
    String :=
  let header_reason := if reason ≠ "" then " Reason: " ++ reason else ""
  let lines : List String :=
    ["1) Summary",
     "LLM generation is currently unavailable or retrieval failed. "
       ++ "This is a deterministic evidence narrative generated from retrieved snippets."
       ++ header_reason,
     "Control: " ++ control.code ++ " — " ++ control.title,
     ""]
    ++ ["2) Evidence mapped to checklist"]
    ++ (if checklist_items.isEmpty then ["- (No checklist items found)"]
        else checklist_items.map (fun it =>
          if artifacts_with_snippets.isEmpty then
            "- " ++ it.text ++ " — Missing evidence"
          else
            let best_ids := pick_best_artifacts_for_item it.text artifacts_with_snippets 2
            if best_ids.isEmpty then
              "- " ++ it.text ++ " — Missing evidence (no strong match found in retrieved snippets)"
            else
              "- " ++ it.text ++ " — Candidate evidence: "
                ++ String.intercalate ", "
                  (best_ids.map (fun aid => "[Artifact " ++ toString aid ++ "]"))))
    ++ [""]
    ++ ["3) Gaps / Missing evidence"]
    ++ (if artifacts_with_snippets.isEmpty then
          ["- No indexed evidence snippets found. Upload text evidence (.txt/.md/.csv) first."]
        else
          ["- Confirm each checklist item has direct proof (exports/logs/screenshots) and is within the last 90 days.",
           "- If any checklist item lacks direct evidence, add an artifact that proves it and re-run."])
    ++ [""]
    ++ ["4) Next best actions",
        "- Upload 1–2 more artifacts that directly prove this control (exports/logs/policies).",
        "- Link the best artifacts to the control and click “Compute readiness”.",
        "- Re-run retrieval evaluation after adding more labeled pairs."]
  String.intercalate "\n" lines

/-- `_safe_get_artifact_ids` (api/agent_report.py lines 144-162): the two
retriever calls may raise (modelled as `Except` outcomes); exceptions are
swallowed and an empty hybrid result falls back to keyword retrieval. -/
def safe_get_artifact_ids (hybridOutcome keywordOutcome : Except String (List Nat)) :
    List Nat :=
  let ids := match hybridOutcome with
    | .ok l => l
    | .error _ => []
  if ids = [] then
    match keywordOutcome with
    | .ok l => l
    | .error _ => []
  else ids

/-- The snippet-context build (api/agent_report.py lines 190-205): for each
retrieved artifact id, look up the artifact and its first
`snippets_per_artifact` chunks by ascending `chunk_index`, each text
truncated to 1200 characters; unknown ids are skipped. -/
def report_context (db : Db) (artifact_ids : List Nat)
    (snippets_per_artifact : Nat) : List (Artifact × List String) :=
  artifact_ids.filterMap (fun aid =>
    match db.artifacts.find? (fun a => a.id == aid) with
    | none => none
    | some a =>
      let cs := (sortStable (fun c₁ c₂ : Chunk => c₁.chunk_index ≤ c₂.chunk_index)
          (db.chunks.filter (fun c => c.artifact_id == aid))).take snippets_per_artifact
      some (a, cs.map (fun c => pyTake 1200 c.text)))

/-- `generate_control_report` (api/agent_report.py lines 165-226).
`clientInit` models the `OpenAI()` constructor — called BEFORE the
`try`, so its failure propagates out (return value `.error`); `gen`
models `client.responses.create` on the assembled prompt. All database
reads are pure here, so the outer catch-all's generic branch is
unreachable in the model. -/
def generate_control_report (db : Db) (clientInit : Except String Unit)
    (hybridOutcome keywordOutcome : Except String (List Nat))
    (gen : String → Except String String) (control_id : Nat)
    (k_artifacts snippets_per_artifact : Nat) :
    Except String (String × String) :=
  match clientInit with
  | .error e => .error e
  | .ok _ =>
    match db.controls.find? (fun c => c.id == control_id) with
    | none => .ok ("Control not found.", "fallback")
    | some control =>
      let checklist_items :=
        db.checklist_items.filter (fun it => it.control_id == control_id)
      let artifact_ids := safe_get_artifact_ids hybridOutcome keywordOutcome
      let artifacts_with_snippets :=
        report_context db artifact_ids snippets_per_artifact
      let prompt := build_prompt control checklist_items artifacts_with_snippets
      match gen prompt with
      | .ok text => .ok (text, "openai")
      | .error e =>
        .ok (fallback_report control checklist_items artifacts_with_snippets e,
             "fallback")

/-! ## Helper lemmas -/

lemma list_sum_le_length (l : List ℚ) (h : ∀ x ∈ l, x ≤ 1) : l.sum ≤ l.length := by
  induction l with
  | nil => simp
  | cons x xs ih =>
    have hx := h x (by simp)
    have hxs := ih (fun y hy => h y (by simp [hy]))
    simp only [List.sum_cons, List.length_cons]
    push_cast
    linarith

lemma credibilityScore_bounds (linked : List Artifact) :
    0 ≤ credibilityScore linked ∧ credibilityScore linked ≤ 100 := by
  unfold credibilityScore
  split_ifs with h
  · norm_num
  · have hlen : 0 < (linked.length : ℚ) := by
      have : linked.length ≠ 0 := fun hc => h (List.length_eq_zero.mp hc)
      positivity
    have hsum0 : 0 ≤ (linked.map artifactWeight).sum := by
      apply List.sum_nonneg
      intro x hx
      obtain ⟨a, _, rfl⟩ := List.mem_map.mp hx
      unfold artifactWeight
      split_ifs <;> norm_num
    have hsum1 : (linked.map artifactWeight).sum ≤ linked.length := by
      have := list_sum_le_length (linked.map artifactWeight) ?_
      · simpa using this
      · intro x hx
        obtain ⟨a, _, rfl⟩ := List.mem_map.mp hx
        unfold artifactWeight
        split_ifs <;> norm_num
    constructor
    · positivity
    · have hq : (linked.map artifactWeight).sum / linked.length ≤ 1 :=
        (div_le_one hlen).mpr hsum1
      nlinarith

lemma resolveOpenGaps_no_open (gaps : List GapRow) (cid : Nat) (now : Int) :
    (resolveOpenGaps gaps cid now).filter (isOpenGapOf cid) = [] := by
  rw [List.filter_eq_nil_iff]
  intro g hg
  obtain ⟨g0, _, rfl⟩ := List.mem_map.mp hg
  unfold isOpenGapOf
  split_ifs with h
  · simp
  · rw [Classical.not_and_iff_or_not_not] at h
    rcases h with h | h
    · simp [h]
    · rcases hr : g0.resolved_at with _ | v
      · exact absurd hr h
      · simp [hr]

lemma newGaps_all_open (cid : Nat) (cov fresh cred : ℚ) (hl : Bool) (now : Int) :
    (newGaps cid cov fresh cred hl now).filter (isOpenGapOf cid) =
      newGaps cid cov fresh cred hl now := by
  rw [List.filter_eq_self]
  intro g hg
  unfold newGaps at hg
  simp only [List.mem_append] at hg
  rcases hg with (hg | hg) | hg <;>
    · split_ifs at hg <;> simp only [List.mem_singleton, List.not_mem_nil] at hg
      all_goals (subst hg; simp [isOpenGapOf])

lemma newGaps_nodup (cid : Nat) (cov fresh cred : ℚ) (hl : Bool) (now : Int) :
    (newGaps cid cov fresh cred hl now).Nodup := by
  unfold newGaps
  split_ifs <;> simp [List.Nodup]

lemma fuseGo_eq_dedup_take (k : Nat) :
    ∀ (l seen out : List Nat), out.length < k →
      fuseGo k l seen out = out ++ (firstDedup l seen).take (k - out.length)
  | [], seen, out, _ => by simp [fuseGo, firstDedup]
  | aid :: rest, seen, out, h => by
    by_cases hmem : aid ∈ seen
    · rw [fuseGo, firstDedup, if_pos hmem]
      simp only [hmem, if_true]
      rw [if_neg (by omega)]
      exact fuseGo_eq_dedup_take k rest seen out h
    · rw [fuseGo, firstDedup, if_neg hmem]
      simp only [hmem, if_false]
      by_cases hlen : k ≤ (out ++ [aid]).length
      · rw [if_pos hlen]
        simp only [List.length_append, List.length_singleton] at hlen
        have hk : k - out.length = 1 := by omega
        rw [hk]
        simp
      · rw [if_neg hlen]
        simp only [List.length_append, List.length_singleton] at hlen
        have h' : (out ++ [aid]).length < k := by simp; omega
        rw [fuseGo_eq_dedup_take k rest (aid :: seen) (out ++ [aid]) h']
        have hk : k - out.length = (k - (out.length + 1)) + 1 := by omega
        rw [List.append_assoc]
        congr 1
        simp only [List.length_append, List.length_singleton]
        rw [hk, List.take_succ_cons]
        simp

/-! ## Claim theorems -/

/-- **C1** (amended): the credibility score is the average over linked
artifacts of a per-artifact weight times 100, where the weight is 1.0
exactly when the artifact's source tag is `"github"` — the privileged
system-collected source in this codebase — and 0.7 otherwise; with no
linked artifacts it is 0; two linked artifacts tagged `"github"` and
`"upload"` yield 85. -/
theorem credibility_weighted_average (linked : List Artifact) :
    (linked ≠ [] →
      credibilityScore linked =
        (linked.map (fun a => (if a.source = "github" then (1 : ℚ) else 7/10) * 100)).sum
          / linked.length)
    ∧ credibilityScore [] = 0
    ∧ credibilityScore
        [⟨1, "github", "evidence-export", some 0⟩, ⟨2, "upload", "policy-doc", some 0⟩] = 85 := by
  refine ⟨fun h => ?_, by simp [credibilityScore],
    by simp [credibilityScore, artifactWeight]; norm_num⟩
  unfold credibilityScore
  rw [if_neg h]
  have : (linked.map (fun a => (if a.source = "github" then (1 : ℚ) else 7/10) * 100)).sum
      = (linked.map artifactWeight).sum * 100 := by
    rw [← List.sum_map_mul_right]
    simp [artifactWeight]
  rw [this]
  ring

/-- Witness for C1's amended theorem at a concrete linked set. -/
theorem credibility_weighted_average_witness :
    credibilityScore [⟨1, "upload", "policy-doc", some 0⟩] = 70 := by
  have h := (credibility_weighted_average [⟨1, "upload", "policy-doc", some 0⟩]).1 (by simp)
  rw [h]
  simp
  norm_num

/-- **C1** (counterexample): the claim's concrete scenario fails — with
source tags `"system"` and `"upload"` the code weights BOTH at 0.7 (the
privileged tag is `"github"`, not `"system"`), so credibility is 70, not
the claimed 85. -/
theorem credibility_system_tag_counterexample :
    credibilityScore
        [⟨1, "system", "evidence-export", some 0⟩, ⟨2, "upload", "policy-doc", some 0⟩] = 70
    ∧ (70 : ℚ) ≠ 85 := by
  constructor
  · simp [credibilityScore, artifactWeight]
    norm_num
  · norm_num

/-- **C6**: coverage is `min(100, 100 * linked_count / checklist_count)`
for a positive checklist count and 0 whenever the checklist count is ≤ 0,
regardless of the linked artifacts. -/
theorem coverage_formula (linked : List Artifact) (checklistCount now : Int) :
    (0 < checklistCount →
      (compute_scores linked checklistCount now).1 =
        min 100 (100 * (linked.length : ℚ) / (checklistCount : ℚ)))
    ∧ (checklistCount ≤ 0 → (compute_scores linked checklistCount now).1 = 0) := by
  constructor
  · intro h
    simp only [compute_scores, coverageScore, if_neg (not_le_of_lt h)]
    ring_nf
  · intro h
    simp only [compute_scores, coverageScore, if_pos h]

/-- Witness for C6: 2 artifacts, 4 checklist items → coverage 50; checklist
count 0 → coverage 0 even with a linked artifact. -/
theorem coverage_formula_witness :
    (compute_scores [⟨1, "github", "a", some 0⟩, ⟨2, "upload", "b", some 0⟩] 4 0).1 = 50
    ∧ (compute_scores [⟨1, "github", "a", some 0⟩] 0 0).1 = 0 := by
  constructor
  · rw [(coverage_formula [⟨1, "github", "a", some 0⟩, ⟨2, "upload", "b", some 0⟩] 4 0).1
      (by norm_num)]
    norm_num
  · exact (coverage_formula [⟨1, "github", "a", some 0⟩] 0 0).2 (by norm_num)

/-- **C9**: all four computed scores lie in [0, 100], and readiness is the
fixed blend `0.5*coverage + 0.3*freshness + 0.2*credibility`. -/
theorem scores_within_bounds (linked : List Artifact) (checklistCount now : Int) :
    (0 ≤ (compute_scores linked checklistCount now).1
      ∧ (compute_scores linked checklistCount now).1 ≤ 100)
    ∧ (0 ≤ (compute_scores linked checklistCount now).2.1
      ∧ (compute_scores linked checklistCount now).2.1 ≤ 100)
    ∧ (0 ≤ (compute_scores linked checklistCount now).2.2.1
      ∧ (compute_scores linked checklistCount now).2.2.1 ≤ 100)
    ∧ (compute_scores linked checklistCount now).2.2.2 =
        1/2 * (compute_scores linked checklistCount now).1
        + 3/10 * (compute_scores linked checklistCount now).2.1
        + 1/5 * (compute_scores linked checklistCount now).2.2.1
    ∧ (0 ≤ (compute_scores linked checklistCount now).2.2.2
      ∧ (compute_scores linked checklistCount now).2.2.2 ≤ 100) := by
  have hcov : 0 ≤ (compute_scores linked checklistCount now).1
      ∧ (compute_scores linked checklistCount now).1 ≤ 100 := by
    simp only [compute_scores, coverageScore]
    split_ifs with h
    · norm_num
    · have hc : (0 : ℚ) < (checklistCount : ℚ) := by
        have : (0 : Int) < checklistCount := lt_of_not_le h
        exact_mod_cast this
      constructor
      · apply le_min <;> positivity
      · exact min_le_left _ _
  have hfresh : 0 ≤ (compute_scores linked checklistCount now).2.1
      ∧ (compute_scores linked checklistCount now).2.1 ≤ 100 := by
    simp only [compute_scores, freshnessScore]
    split_ifs with h
    · norm_num
    · rcases hm : (linked.filterMap (fun a => a.collected_at)).max? with _ | newest
      · simp only [hm]
        norm_num
      · simp only [hm]
        split_ifs <;> norm_num
  have hcred := credibilityScore_bounds linked
  have hcred' : 0 ≤ (compute_scores linked checklistCount now).2.2.1
      ∧ (compute_scores linked checklistCount now).2.2.1 ≤ 100 := by
    simpa only [compute_scores] using hcred
  have hready : (compute_scores linked checklistCount now).2.2.2 =
      1/2 * (compute_scores linked checklistCount now).1
      + 3/10 * (compute_scores linked checklistCount now).2.1
      + 1/5 * (compute_scores linked checklistCount now).2.2.1 := by
    simp only [compute_scores]
  refine ⟨hcov, hfresh, hcred', hready, ?_, ?_⟩
  · rw [hready]; obtain ⟨a, b⟩ := hcov; obtain ⟨c, d⟩ := hfresh
    obtain ⟨e, f⟩ := hcred'; linarith
  · rw [hready]; obtain ⟨a, b⟩ := hcov; obtain ⟨c, d⟩ := hfresh
    obtain ⟨e, f⟩ := hcred'; linarith

/-- **C8**: linking the same (control, artifact) pair twice is a no-op the
second time, and starting from a table satisfying the uniqueness invariant
the pair ends up with exactly one row. -/
theorem link_artifact_idempotent (links : List (Nat × Nat)) (c a : Nat) :
    link_artifact (link_artifact links c a) c a = link_artifact links c a
    ∧ ((links.count (c, a) ≤ 1) →
        (link_artifact (link_artifact links c a) c a).count (c, a) = 1) := by
  have hmem : (c, a) ∈ link_artifact links c a := by
    unfold link_artifact
    split_ifs with h
    · exact h
    · simp
  have hidem : link_artifact (link_artifact links c a) c a = link_artifact links c a := by
    unfold link_artifact
    rw [if_pos]
    exact hmem
  refine ⟨hidem, fun hcount => ?_⟩
  rw [hidem]
  unfold link_artifact
  split_ifs with h
  · have h1 : 0 < links.count (c, a) := List.count_pos_iff.mpr h
    omega
  · have h0 : links.count (c, a) = 0 := List.count_eq_zero.mpr h
    rw [List.count_append]
    simp [h0]

/-- Witness for C8 at a concrete table. -/
theorem link_artifact_idempotent_witness :
    (link_artifact (link_artifact [(7, 9)] 1 2) 1 2).count (1, 2) = 1 := by
  exact (link_artifact_idempotent [(7, 9)] 1 2).2 (by simp)

/-- **C7**: one recomputation resolves every open gap of the control
(never deleting a row) and inserts exactly the threshold-implied gaps —
coverage < 100 → High, freshness < 100 → Medium, credibility < 80 with a
linked artifact → Low — so afterwards the open set for the control is
exactly that duplicate-free set. -/
theorem gap_recompute_replaces_open_set (st : ScoreGapState) (control_id : Nat)
    (linked : List Artifact) (checklistCount : Int) (now : Int) :
    ((compute_score_endpoint st control_id linked checklistCount now).gaps.filter
        (isOpenGapOf control_id) =
      newGaps control_id
        (compute_scores linked checklistCount now).1
        (compute_scores linked checklistCount now).2.1
        (compute_scores linked checklistCount now).2.2.1
        (!linked.isEmpty) now)
    ∧ ((compute_score_endpoint st control_id linked checklistCount now).gaps.filter
        (isOpenGapOf control_id)).Nodup
    ∧ ((compute_score_endpoint st control_id linked checklistCount now).gaps.length =
        st.gaps.length +
          (newGaps control_id
            (compute_scores linked checklistCount now).1
            (compute_scores linked checklistCount now).2.1
            (compute_scores linked checklistCount now).2.2.1
            (!linked.isEmpty) now).length)
    ∧ (∀ g ∈ st.gaps,
        (isOpenGapOf control_id g →
          { g with resolved_at := some now } ∈
            (compute_score_endpoint st control_id linked checklistCount now).gaps)
        ∧ (¬ isOpenGapOf control_id g →
          g ∈ (compute_score_endpoint st control_id linked checklistCount now).gaps)) := by
  have hfilter :
      (compute_score_endpoint st control_id linked checklistCount now).gaps.filter
        (isOpenGapOf control_id) =
      newGaps control_id
        (compute_scores linked checklistCount now).1
        (compute_scores linked checklistCount now).2.1
        (compute_scores linked checklistCount now).2.2.1
        (!linked.isEmpty) now := by
    simp only [compute_score_endpoint, List.filter_append]
    rw [resolveOpenGaps_no_open, newGaps_all_open, List.nil_append]
  refine ⟨hfilter, ?_, ?_, ?_⟩
  · rw [hfilter]
    exact newGaps_nodup _ _ _ _ _ _
  · simp only [compute_score_endpoint, List.length_append, resolveOpenGaps, List.length_map]
  · intro g hg
    constructor
    · intro hopen
      simp only [compute_score_endpoint, List.mem_append]
      left
      unfold resolveOpenGaps
      rw [List.mem_map]
      refine ⟨g, hg, ?_⟩
      rw [if_pos]
      unfold isOpenGapOf at hopen
      simp only [Bool.and_eq_true, beq_iff_eq, Option.isNone_iff_eq_none] at hopen
      exact hopen
    · intro hnopen
      simp only [compute_score_endpoint, List.mem_append]
      left
      unfold resolveOpenGaps
      rw [List.mem_map]
      refine ⟨g, hg, ?_⟩
      rw [if_neg]
      intro hc
      apply hnopen
      unfold isOpenGapOf
      simp only [Bool.and_eq_true, beq_iff_eq, Option.isNone_iff_eq_none]
      exact hc

/-- Witness for C7 at a concrete state: one open and one resolved gap;
after recomputation with no linked artifacts and 2 checklist items the open
set is exactly High + Medium (no Low: no linked artifact), the old rows
survive. -/
theorem gap_recompute_witness :
    let st : ScoreGapState :=
      { scores := [],
        gaps := [⟨1, "High", "Missing evidence: coverage below 100%", 0, none⟩,
                 ⟨1, "Low", "old", 0, some 3⟩] }
    let st' := compute_score_endpoint st 1 [] 2 5
    st'.gaps.filter (isOpenGapOf 1) =
      [⟨1, "High", "Missing evidence: coverage below 100%", 5, none⟩,
       ⟨1, "Medium", "Evidence may be stale (older than 90 days)", 5, none⟩]
    ∧ st'.gaps.length = 4
    ∧ (⟨1, "High", "Missing evidence: coverage below 100%", 0, some 5⟩ : GapRow) ∈ st'.gaps
    ∧ (⟨1, "Low", "old", 0, some 3⟩ : GapRow) ∈ st'.gaps := by
  intro st st'
  have h := gap_recompute_replaces_open_set st 1 [] 2 5
  refine ⟨?_, ?_, ?_, ?_⟩
  · rw [h.1]
    simp only [newGaps, compute_scores, coverageScore, freshnessScore, credibilityScore]
    norm_num
  · rw [h.2.2.1]
    simp only [newGaps, compute_scores, coverageScore, freshnessScore, credibilityScore]
    norm_num
  · have := (h.2.2.2 ⟨1, "High", "Missing evidence: coverage below 100%", 0, none⟩
      (by simp [st])).1 (by simp [isOpenGapOf])
    simpa using this
  · have := (h.2.2.2 ⟨1, "Low", "old", 0, some 3⟩ (by simp [st])).2
      (by simp [isOpenGapOf])
    simpa using this

/-- **C3** (amended): for every requested k ≥ 1, rank fusion returns the
lexical-then-semantic concatenation deduplicated by first occurrence and
truncated to k; the claim's concrete scenario holds and two empty inputs
fuse to the empty list. -/
theorem hybrid_fuse_spec (kw em : List Nat) (k : Nat) (hk : 1 ≤ k) :
    hybrid_fuse kw em k = (firstDedup (kw ++ em) []).take k
    ∧ hybrid_fuse [3, 1, 2] [2, 5, 1] 3 = [3, 1, 2]
    ∧ hybrid_fuse [] [] k = [] := by
  refine ⟨?_, by decide, ?_⟩
  · have := fuseGo_eq_dedup_take k (kw ++ em) [] [] (by simpa using hk)
    simpa [hybrid_fuse] using this
  · rw [hybrid_fuse]
    simp [fuseGo]

/-- Witness for C3's amended theorem at the claim's own example. -/
theorem hybrid_fuse_spec_witness :
    hybrid_fuse [3, 1, 2] [2, 5, 1] 3 = (firstDedup ([3, 1, 2] ++ [2, 5, 1]) []).take 3
    ∧ hybrid_fuse [3, 1, 2] [2, 5, 1] 3 = [3, 1, 2] := by
  have h := hybrid_fuse_spec [3, 1, 2] [2, 5, 1] 3 (by norm_num)
  exact ⟨h.1, h.2.1⟩

/-- **C3** (counterexample): at k = 0 the loop appends the first candidate
BEFORE testing the length bound, so the result is not the truncation to
k = 0 of the deduplicated concatenation. -/
theorem hybrid_fuse_k_zero_counterexample :
    hybrid_fuse [3] [] 0 = [3]
    ∧ hybrid_fuse [3] [] 0 ≠ (firstDedup ([3] ++ []) []).take 0 := by
  refine ⟨by decide, by decide⟩

lemma embedding_retrieve_failed_state (enc : String → List String → List ℚ)
    (q : String) (cs : List Chunk) (k : Nat) (s : ModelState) (att : LoadOutcome)
    (hf : s.load_failed = true) (hm : s.model = none) :
    embedding_retrieve enc q cs k s att = ([], s, false) := by
  unfold embedding_retrieve get_model
  rw [hm]
  simp [hf]

/-- **C5**: if a load attempt fails (with the model not yet loaded), the
call returns `[]` and sets the permanent failure flag; from then on every
semantic-ranker call in the process returns `[]`, the globals never change,
and the load path is never entered again. -/
theorem semantic_load_failure_is_permanent (s : ModelState)
    (enc : String → List String → List ℚ) (q : String) (cs : List Chunk) (k : Nat)
    (hm : s.model = none) :
    ((embedding_retrieve enc q cs k s .err).1 = []
      ∧ (embedding_retrieve enc q cs k s .err).2.1.load_failed = true
      ∧ (embedding_retrieve enc q cs k s .err).2.1.model = none)
    ∧ (∀ calls,
        runSemanticCalls calls (embedding_retrieve enc q cs k s .err).2.1 =
          (calls.map (fun _ => []), (embedding_retrieve enc q cs k s .err).2.1, false)) := by
  have hstate : (embedding_retrieve enc q cs k s .err).2.1.load_failed = true
      ∧ (embedding_retrieve enc q cs k s .err).2.1.model = none
      ∧ (embedding_retrieve enc q cs k s .err).1 = [] := by
    unfold embedding_retrieve get_model
    rw [hm]
    by_cases hf : s.load_failed
    · simp [hf, hm]
    · simp [hf]
  refine ⟨⟨hstate.2.2, hstate.1, hstate.2.1⟩, ?_⟩
  generalize hgen : (embedding_retrieve enc q cs k s .err).2.1 = s₁
  rw [hgen] at hstate
  intro calls
  induction calls with
  | nil => simp [runSemanticCalls]
  | cons c rest ih =>
    obtain ⟨enc', q', cs', k', att'⟩ := c
    rw [runSemanticCalls]
    rw [embedding_retrieve_failed_state enc' q' cs' k' s₁ att' hstate.1 hstate.2.1]
    simp [ih]

/-- Witness for C5: a concrete failed first load followed by two concrete
calls, one of which would succeed in loading — it is never attempted. -/
theorem semantic_load_failure_is_permanent_witness :
    let enc : String → List String → List ℚ := fun _ _ => []
    let s₀ : ModelState := ⟨none, false⟩
    let r := embedding_retrieve enc "query" [] 10 s₀ .err
    (r.1 = [] ∧ r.2.1.load_failed = true ∧ r.2.1.model = none)
    ∧ runSemanticCalls
        [(enc, "a", [], 5, .ok), (enc, "b", [⟨1, 1, 0, "t"⟩], 7, .err)] r.2.1 =
      ([[], []], r.2.1, false) := by
  intro enc s₀ r
  have h := semantic_load_failure_is_permanent s₀ enc "query" [] 10 rfl
  exact ⟨h.1, h.2 [(enc, "a", [], 5, .ok), (enc, "b", [⟨1, 1, 0, "t"⟩], 7, .err)]⟩

lemma insertStable_perm (c : α → α → Bool) (x : α) (l : List α) :
    List.Perm (insertStable c x l) (x :: l) := by
  induction l with
  | nil => rfl
  | cons y rest ih =>
    unfold insertStable
    split_ifs
    · rfl
    · exact (ih.cons y).trans (List.Perm.swap x y rest)

lemma sortStable_perm (c : α → α → Bool) (l : List α) : List.Perm (sortStable c l) l := by
  induction l with
  | nil => rfl
  | cons x rest ih =>
    unfold sortStable at ih ⊢
    rw [List.foldr_cons]
    exact (insertStable_perm c x _).trans (ih.cons x)

lemma sortStable_length (c : α → α → Bool) (l : List α) :
    (sortStable c l).length = l.length :=
  (sortStable_perm c l).length_eq

lemma firstDedup_subset {xs seen : List Nat} {y : Nat}
    (h : y ∈ firstDedup xs seen) : y ∈ xs := by
  induction xs generalizing seen with
  | nil => simp [firstDedup] at h
  | cons x rest ih =>
    rw [firstDedup] at h
    split_ifs at h with hx
    · exact List.mem_cons_of_mem x (ih h)
    · rcases List.mem_cons.mp h with rfl | h'
      · exact List.mem_cons_self _ _
      · exact List.mem_cons_of_mem x (ih h')

lemma firstDedup_nodup_aux (xs : List Nat) :
    ∀ seen, (firstDedup xs seen).Nodup ∧ ∀ y ∈ firstDedup xs seen, y ∉ seen := by
  induction xs with
  | nil => intro seen; simp [firstDedup]
  | cons x rest ih =>
    intro seen
    rw [firstDedup]
    split_ifs with hx
    · exact ⟨(ih seen).1, (ih seen).2⟩
    · obtain ⟨hnd, hns⟩ := ih (x :: seen)
      constructor
      · rw [List.nodup_cons]
        exact ⟨fun hc => hns x hc (List.mem_cons_self _ _), hnd⟩
      · intro y hy
        rcases List.mem_cons.mp hy with rfl | hy'
        · exact hx
        · exact fun hc => hns y hy' (List.mem_cons_of_mem x hc)

lemma firstDedup_nodup (xs seen : List Nat) : (firstDedup xs seen).Nodup :=
  (firstDedup_nodup_aux xs seen).1

lemma firstDedup_congr (xs s t : List Nat)
    (h : ∀ y, y ∈ s ↔ y ∈ t) : firstDedup xs s = firstDedup xs t := by
  induction xs generalizing s t with
  | nil => simp [firstDedup]
  | cons x rest ih =>
    rw [firstDedup, firstDedup]
    by_cases hx : x ∈ s
    · rw [if_pos hx, if_pos ((h x).mp hx)]
      exact ih s t h
    · rw [if_neg hx, if_neg (fun hc => hx ((h x).mpr hc))]
      congr 1
      apply ih
      intro y
      simp only [List.mem_cons]
      exact or_congr Iff.rfl (h y)



lemma insertMax_keys (acc : List (Nat × ℚ)) (a : Nat) (s : ℚ) :
    (insertMax acc a s).map Prod.fst =
      if a ∈ acc.map Prod.fst then acc.map Prod.fst
      else acc.map Prod.fst ++ [a] := by
  induction acc with
  | nil => simp [insertMax]
  | cons p rest ih =>
    obtain ⟨b, v⟩ := p
    rw [insertMax]
    by_cases hb : b = a
    · subst hb
      simp
    · rw [if_neg hb]
      simp only [List.map_cons, ih, List.mem_cons]
      by_cases hmem : a ∈ rest.map Prod.fst
      · rw [if_pos hmem, if_pos (Or.inr hmem)]
      · rw [if_neg hmem, if_neg (by
          intro hc
          rcases hc with hc | hc
          · exact hb hc.symm
          · exact hmem hc)]
        simp

lemma insertMax_lookup_self (acc : List (Nat × ℚ)) (a : Nat) (s : ℚ) :
    (insertMax acc a s).lookup a = some (max ((acc.lookup a).getD 0) s) := by
  induction acc with
  | nil => simp [insertMax, List.lookup]
  | cons p rest ih =>
    obtain ⟨b, v⟩ := p
    rw [insertMax]
    by_cases hb : b = a
    · subst hb
      simp [List.lookup]
    · rw [if_neg hb]
      have hab : (a == b) = false := beq_eq_false_iff_ne.mpr (fun h' => hb h'.symm)
      simp only [List.lookup, hab, ih]

lemma insertMax_lookup_ne (acc : List (Nat × ℚ)) (a b : Nat) (s : ℚ)
    (h : b ≠ a) : (insertMax acc a s).lookup b = acc.lookup b := by
  have hba : (b == a) = false := beq_eq_false_iff_ne.mpr h
  induction acc with
  | nil => simp only [insertMax, List.lookup, hba]
  | cons p rest ih =>
    obtain ⟨c, v⟩ := p
    rw [insertMax]
    by_cases hc : c = a
    · subst hc
      simp only [List.lookup, hba]
    · rw [if_neg hc]
      by_cases hbc : b = c
      · subst hbc
        simp [List.lookup]
      · have h1 : (b == c) = false := beq_eq_false_iff_ne.mpr hbc
        simp only [List.lookup, h1, ih]



lemma accValue_nil (x : Nat) (base : ℚ) : accValue [] x base = base := rfl

lemma accValue_cons_self (a : Nat) (s : ℚ) (rest : List (Nat × ℚ)) (v : ℚ) :
    accValue ((a, s) :: rest) a v = accValue rest a (max v s) := by
  unfold accValue
  simp

lemma accValue_cons_ne {x a : Nat} (s : ℚ) (rest : List (Nat × ℚ)) (v : ℚ)
    (h : x ≠ a) : accValue ((a, s) :: rest) x v = accValue rest x v := by
  unfold accValue
  have : (a == x) = false := beq_eq_false_iff_ne.mpr (fun h' => h h'.symm)
  simp [this]

lemma foldScores_keys : ∀ (pairs acc : List (Nat × ℚ)),
    (foldScores pairs acc).map Prod.fst =
      acc.map Prod.fst ++ firstDedup (pairs.map Prod.fst) (acc.map Prod.fst)
  | [], acc => by simp [foldScores, firstDedup]
  | (a, s) :: rest, acc => by
    rw [foldScores, foldScores_keys rest (insertMax acc a s)]
    rw [insertMax_keys]
    by_cases hmem : a ∈ acc.map Prod.fst
    · rw [if_pos hmem]
      simp only [List.map_cons]
      rw [firstDedup, if_pos hmem]
    · rw [if_neg hmem]
      simp only [List.map_cons]
      rw [firstDedup, if_neg hmem]
      rw [firstDedup_congr (rest.map Prod.fst) (acc.map Prod.fst ++ [a])
        (a :: acc.map Prod.fst) (by intro y; simp [or_comm])]
      simp

lemma foldScores_lookup : ∀ (pairs acc : List (Nat × ℚ)) (x : Nat),
    (foldScores pairs acc).lookup x =
      match acc.lookup x with
      | some v => some (accValue pairs x v)
      | none =>
        if x ∈ pairs.map Prod.fst then some (accValue pairs x 0) else none
  | [], acc, x => by
    rw [foldScores]
    rcases h : acc.lookup x with _ | v
    · simp [accValue_nil]
    · simp [accValue_nil]
  | (a, s) :: rest, acc, x => by
    rw [foldScores, foldScores_lookup rest (insertMax acc a s) x]
    by_cases hxa : x = a
    · subst hxa
      rw [insertMax_lookup_self]
      rcases h : acc.lookup x with _ | v
      · simp only [h, Option.getD_none]
        rw [accValue_cons_self]
        simp
      · simp only [h, Option.getD_some]
        rw [accValue_cons_self]
    · rw [insertMax_lookup_ne acc a x s hxa]
      rcases h : acc.lookup x with _ | v
      · simp only [h]
        have hmem : (x ∈ ((a, s) :: rest).map Prod.fst) ↔ (x ∈ rest.map Prod.fst) := by
          simp [hxa]
        rw [accValue_cons_ne s rest 0 hxa]
        by_cases hm : x ∈ rest.map Prod.fst
        · rw [if_pos hm, if_pos (hmem.mpr hm)]
        · rw [if_neg hm, if_neg (fun hc => hm (hmem.mp hc))]
      · simp only [h]
        rw [accValue_cons_ne s rest v hxa]

lemma lookup_eq_none_of_not_mem_keys {l : List (Nat × ℚ)} {x : Nat}
    (h : x ∉ l.map Prod.fst) : l.lookup x = none := by
  induction l with
  | nil => rfl
  | cons p rest ih =>
    obtain ⟨a, v⟩ := p
    simp only [List.map_cons, List.mem_cons] at h
    push_neg at h
    have : (x == a) = false := beq_eq_false_iff_ne.mpr h.1
    simp only [List.lookup, this]
    exact ih h.2

lemma alist_ext : ∀ (l₁ l₂ : List (Nat × ℚ)),
    l₁.map Prod.fst = l₂.map Prod.fst → (l₁.map Prod.fst).Nodup →
    (∀ x, l₁.lookup x = l₂.lookup x) → l₁ = l₂
  | [], [], _, _, _ => rfl
  | [], (q :: t₂), hk, _, _ => by simp at hk
  | (p :: t₁), [], hk, _, _ => by simp at hk
  | (p :: t₁), (q :: t₂), hk, hnd, hl => by
    obtain ⟨a, v⟩ := p
    obtain ⟨b, w⟩ := q
    simp only [List.map_cons, List.cons.injEq] at hk
    obtain ⟨hab, htk⟩ := hk
    subst hab
    have hv : v = w := by
      have h1 := hl a
      simp [List.lookup] at h1
      exact h1
    subst hv
    have hnd' : (t₁.map Prod.fst).Nodup := (List.nodup_cons.mp hnd).2
    have hna : a ∉ t₁.map Prod.fst := (List.nodup_cons.mp hnd).1
    have hnb : a ∉ t₂.map Prod.fst := htk ▸ hna
    have htl : ∀ x, t₁.lookup x = t₂.lookup x := by
      intro x
      by_cases hxa : x = a
      · subst hxa
        rw [lookup_eq_none_of_not_mem_keys hna, lookup_eq_none_of_not_mem_keys hnb]
      · have h1 := hl x
        have hxb : (x == a) = false := beq_eq_false_iff_ne.mpr hxa
        simpa only [List.lookup, hxb] using h1
    rw [alist_ext t₁ t₂ htk hnd' htl]

lemma lookup_map_self (f : Nat → ℚ) : ∀ (order : List Nat) (x : Nat),
    x ∈ order → (order.map (fun a => (a, f a))).lookup x = some (f x)
  | [], x, hx => by simp at hx
  | a :: rest, x, hx => by
    by_cases hxa : x = a
    · subst hxa
      simp [List.lookup]
    · have h1 : (x == a) = false := beq_eq_false_iff_ne.mpr hxa
      simp only [List.map_cons, List.lookup, h1]
      exact lookup_map_self f rest x (by
        rcases List.mem_cons.mp hx with h | h
        · exact absurd h hxa
        · exact h)

lemma foldl_max_perm {l₁ l₂ : List ℚ} (h : List.Perm l₁ l₂) :
    ∀ b : ℚ, l₁.foldl max b = l₂.foldl max b := by
  induction h with
  | nil => intro b; rfl
  | cons x _ ih => intro b; simp only [List.foldl_cons]; exact ih _
  | swap x y t =>
    intro b
    simp only [List.foldl_cons]
    rw [sup_right_comm]
  | trans _ _ ih₁ ih₂ => intro b; rw [ih₁, ih₂]



lemma mem_firstDedup {y : Nat} : ∀ (xs seen : List Nat),
    (y ∈ firstDedup xs seen ↔ (y ∈ xs ∧ y ∉ seen))
  | [], seen => by simp [firstDedup]
  | x :: rest, seen => by
    rw [firstDedup]
    split_ifs with hx
    · rw [mem_firstDedup rest seen]
      constructor
      · exact fun ⟨h1, h2⟩ => ⟨List.mem_cons_of_mem x h1, h2⟩
      · rintro ⟨h1, h2⟩
        rcases List.mem_cons.mp h1 with rfl | h1'
        · exact absurd hx h2
        · exact ⟨h1', h2⟩
    · simp only [List.mem_cons, mem_firstDedup rest (x :: seen)]
      constructor
      · rintro (rfl | ⟨h1, h2⟩)
        · exact ⟨Or.inl rfl, hx⟩
        · exact ⟨Or.inr h1, fun hc => h2 (Or.inr hc)⟩
      · rintro ⟨rfl | h1, h2⟩
        · exact Or.inl rfl
        · by_cases hyx : y = x
          · exact Or.inl hyx
          · exact Or.inr ⟨h1, fun hc => hc.elim hyx h2⟩

lemma argsortDesc_length (sims : List ℚ) : (argsortDesc sims).length = sims.length := by
  unfold argsortDesc
  rw [sortStable_length, List.length_range]

lemma argsortDesc_perm_range (sims : List ℚ) :
    List.Perm (argsortDesc sims) (List.range sims.length) :=
  sortStable_perm _ _

lemma aggregateScores_eq_spec (chunks : List Chunk) (sims : List ℚ)
    (h200 : chunks.length ≤ 200) (hlen : sims.length = chunks.length) :
    aggregateScores chunks sims =
      (specArtifactOrder chunks sims).map
        (fun a => (a, specArtifactScore chunks sims a)) := by
  have hrl : (argsortDesc sims).length = chunks.length := by
    rw [argsortDesc_length, hlen]
  have htake : (argsortDesc sims).take (min (argsortDesc sims).length 200) =
      argsortDesc sims := by
    rw [show min (argsortDesc sims).length 200 = (argsortDesc sims).length by omega,
      List.take_length]
  have hagg : aggregateScores chunks sims =
      foldScores ((argsortDesc sims).map
        (fun i => ((chunks.getD i default).artifact_id, sims.getD i 0))) [] := by
    simp only [aggregateScores]
    rw [htake]
  have hkeysfst : (((argsortDesc sims).map
        (fun i => ((chunks.getD i default).artifact_id, sims.getD i 0))).map Prod.fst) =
      (argsortDesc sims).map (fun i => (chunks.getD i default).artifact_id) := by
    rw [List.map_map]
    rfl
  rw [hagg]
  apply alist_ext
  · rw [foldScores_keys]
    simp only [List.map_nil, List.nil_append]
    rw [hkeysfst, List.map_map]
    unfold specArtifactOrder
    have hcomp : (Prod.fst ∘ fun a => (a, specArtifactScore chunks sims a)) = id := rfl
    rw [hcomp, List.map_id]
  · rw [foldScores_keys]
    simp only [List.map_nil, List.nil_append]
    rw [hkeysfst]
    exact firstDedup_nodup _ _
  · intro x
    rw [foldScores_lookup]
    simp only [List.lookup_nil]
    rw [hkeysfst]
    by_cases hmem : x ∈ (argsortDesc sims).map (fun i => (chunks.getD i default).artifact_id)
    · rw [if_pos hmem]
      have hord : x ∈ specArtifactOrder chunks sims := by
        unfold specArtifactOrder
        rw [mem_firstDedup]
        exact ⟨hmem, by simp⟩
      rw [lookup_map_self _ _ _ hord]
      congr 1
      unfold accValue specArtifactScore
      have hfm : ((((argsortDesc sims).map
            (fun i => ((chunks.getD i default).artifact_id, sims.getD i 0))).filter
              (fun p => p.1 == x)).map (fun p => p.2)) =
          (((argsortDesc sims).filter
              (fun i => (chunks.getD i default).artifact_id == x)).map
            (fun i => sims.getD i 0)) := by
        rw [List.filter_map, List.map_map]
        rfl
      rw [hfm]
      apply foldl_max_perm
      apply List.Perm.map
      apply List.Perm.filter
      have hp := argsortDesc_perm_range sims
      rw [hlen] at hp
      exact hp
    · rw [if_neg hmem]
      have hord : x ∉ specArtifactOrder chunks sims := by
        unfold specArtifactOrder
        rw [mem_firstDedup]
        exact fun hc => hmem hc.1
      rw [lookup_eq_none_of_not_mem_keys]
      intro hc
      apply hord
      rw [List.map_map] at hc
      simpa using hc



lemma mem_insertStable {c : α → α → Bool} {x z : α} {l : List α} :
    z ∈ insertStable c x l ↔ z = x ∨ z ∈ l := by
  rw [(insertStable_perm c x l).mem_iff]
  simp

lemma insertStable_descBy_pairwise (key : α → ℚ) (x : α) (l : List α)
    (hl : l.Pairwise (fun a b => key b ≤ key a)) :
    (insertStable (descBy key) x l).Pairwise (fun a b => key b ≤ key a) := by
  induction l with
  | nil => simp [insertStable]
  | cons y rest ih =>
    rw [insertStable]
    unfold descBy
    split_ifs with hxy
    · have hxy' : key y ≤ key x := by simpa using hxy
      constructor
      · intro z hz
        rcases List.mem_cons.mp hz with rfl | hz'
        · exact hxy'
        · exact le_trans (List.rel_of_pairwise_cons hl hz') hxy'
      · exact hl
    · have hyx : key x < key y := by
        have hnot : ¬ key y ≤ key x := by simpa using hxy
        exact lt_of_not_le hnot
      rw [List.pairwise_cons] at hl
      constructor
      · intro z hz
        rcases mem_insertStable.mp hz with rfl | hz'
        · exact le_of_lt hyx
        · exact hl.1 z hz'
      · exact ih hl.2

lemma sortStable_descBy_pairwise (key : α → ℚ) (l : List α) :
    (sortStable (descBy key) l).Pairwise (fun a b => key b ≤ key a) := by
  induction l with
  | nil => constructor
  | cons x rest ih =>
    unfold sortStable at ih ⊢
    rw [List.foldr_cons]
    exact insertStable_descBy_pairwise key x _ ih

lemma topKArtifacts_sorted (f : Nat → ℚ) (order : List Nat) (k : Nat) :
    (topKArtifacts (order.map (fun a => (a, f a))) k).Pairwise
      (fun a b => f b ≤ f a) := by
  unfold topKArtifacts
  rw [List.pairwise_map]
  have hsorted := sortStable_descBy_pairwise (fun p : Nat × ℚ => p.2)
    (order.map (fun a => (a, f a)))
  have htake : (sortStable (descBy (fun p : Nat × ℚ => p.2))
        (order.map (fun a => (a, f a)))).take k |>.Pairwise
      (fun p q : Nat × ℚ => q.2 ≤ p.2) :=
    hsorted.sublist (List.take_sublist _ _)
  apply htake.imp_of_mem
  intro p q hp hq hpq
  have hform : ∀ r : Nat × ℚ,
      r ∈ (sortStable (descBy (fun p : Nat × ℚ => p.2))
        (order.map (fun a => (a, f a)))).take k → r.2 = f r.1 := by
    intro r hr
    have hr1 : r ∈ sortStable (descBy (fun p : Nat × ℚ => p.2))
        (order.map (fun a => (a, f a))) := List.mem_of_mem_take hr
    have hr2 : r ∈ order.map (fun a => (a, f a)) :=
      (sortStable_perm _ _).mem_iff.mp hr1
    obtain ⟨a, _, rfl⟩ := List.mem_map.mp hr2
    rfl
  rw [hform p hp, hform q hq] at hpq
  exact hpq



/-- **C2** (amended): for corpora of at most 200 chunks (the cap the code
applies) and a similarity collaborator returning one score per chunk, the
lexical ranker equals the spec-side description with the corrected
tie-break — per-artifact max similarity, top-k by descending score, ties by
first appearance in the descending-similarity chunk ranking (not by
artifact id) — its output is ordered by descending aggregated score, and it
returns [] whenever the stripped query or the corpus is empty. -/
theorem keyword_retrieve_matches_spec (tfidf : String → List String → List ℚ)
    (query : String) (chunks : List Chunk) (k : Nat)
    (h200 : chunks.length ≤ 200)
    (hlen : (tfidf (pyStrip query) (chunks.map (fun c => c.text))).length = chunks.length) :
    keyword_retrieve tfidf query chunks k = spec_retrieve tfidf query chunks k
    ∧ (keyword_retrieve tfidf query chunks k).Pairwise
        (fun a b =>
          specArtifactScore chunks (tfidf (pyStrip query) (chunks.map (fun c => c.text))) b
            ≤ specArtifactScore chunks (tfidf (pyStrip query) (chunks.map (fun c => c.text))) a)
    ∧ (pyStrip query = "" → keyword_retrieve tfidf query chunks k = [])
    ∧ (chunks = [] → keyword_retrieve tfidf query chunks k = []) := by
  have heq : keyword_retrieve tfidf query chunks k = spec_retrieve tfidf query chunks k := by
    simp only [keyword_retrieve, spec_retrieve]
    by_cases hq : pyStrip query = ""
    · rw [if_pos hq, if_pos hq]
    · rw [if_neg hq, if_neg hq]
      by_cases hc : chunks = []
      · rw [if_pos hc, if_pos hc]
      · rw [if_neg hc, if_neg hc]
        rw [aggregateScores_eq_spec chunks _ h200 hlen]
  refine ⟨heq, ?_, ?_, ?_⟩
  · rw [heq]
    simp only [spec_retrieve]
    by_cases hq : pyStrip query = ""
    · rw [if_pos hq]
      constructor
    · rw [if_neg hq]
      by_cases hc : chunks = []
      · rw [if_pos hc]
        constructor
      · rw [if_neg hc]
        exact topKArtifacts_sorted _ _ _
  · intro hq
    simp only [keyword_retrieve]
    rw [if_pos hq]
  · intro hc
    simp only [keyword_retrieve]
    by_cases hq : pyStrip query = ""
    · rw [if_pos hq]
    · rw [if_neg hq, if_pos hc]

/-- Witness for C2's amended theorem at concrete inputs (including the
empty-query case). -/
theorem keyword_retrieve_matches_spec_witness :
    keyword_retrieve (fun _ _ => [1, 1]) "alpha"
        [⟨1, 5, 0, "alpha"⟩, ⟨2, 2, 0, "alpha"⟩] 10 =
      spec_retrieve (fun _ _ => [1, 1]) "alpha"
        [⟨1, 5, 0, "alpha"⟩, ⟨2, 2, 0, "alpha"⟩] 10
    ∧ keyword_retrieve (fun _ _ => ([] : List ℚ)) "   " [] 3 = [] := by
  constructor
  · exact (keyword_retrieve_matches_spec (fun _ _ => [1, 1]) "alpha"
      [⟨1, 5, 0, "alpha"⟩, ⟨2, 2, 0, "alpha"⟩] 10 (by decide) (by decide)).1
  · exact (keyword_retrieve_matches_spec (fun _ _ => ([] : List ℚ)) "   " [] 3
      (by decide) (by decide)).2.2.2 rfl

/-- **C2** (counterexample): two single-chunk artifacts with identical
chunk text "alpha" and query "alpha" tie at TF-IDF cosine 1.0 (identical
texts get identical TF-IDF rows, so sklearn returns equal similarities);
the ranker returns [5, 2] — first-appearance order — not the artifact-id
ascending [2, 5] the claim requires. -/
theorem keyword_tie_break_counterexample :
    keyword_retrieve (fun _ _ => [1, 1]) "alpha"
        [⟨1, 5, 0, "alpha"⟩, ⟨2, 2, 0, "alpha"⟩] 10 = [5, 2]
    ∧ aggregateScores [⟨1, 5, 0, "alpha"⟩, ⟨2, 2, 0, "alpha"⟩] [1, 1] = [(5, 1), (2, 1)]
    ∧ ([5, 2] : List Nat) ≠ [2, 5] := by
  refine ⟨by decide, by decide, by decide⟩



lemma not_mem_topK_of_not_in_cap (chunks : List Chunk) (sims : List ℚ) (k a : Nat)
    (ha : a ∉ ((argsortDesc sims).take (min (argsortDesc sims).length 200)).map
        (fun i => (chunks.getD i default).artifact_id)) :
    a ∉ topKArtifacts (aggregateScores chunks sims) k := by
  intro hmem
  apply ha
  unfold topKArtifacts at hmem
  obtain ⟨p, hp, hpa⟩ := List.mem_map.mp hmem
  have hp1 : p ∈ sortStable (descBy (fun p : Nat × ℚ => p.2)) (aggregateScores chunks sims) :=
    List.mem_of_mem_take hp
  have hp2 : p ∈ aggregateScores chunks sims := (sortStable_perm _ _).mem_iff.mp hp1
  have hkey : a ∈ (aggregateScores chunks sims).map Prod.fst := by
    rw [List.mem_map]
    exact ⟨p, hp2, hpa⟩
  have hkeys : (aggregateScores chunks sims).map Prod.fst =
      firstDedup (((argsortDesc sims).take (min (argsortDesc sims).length 200)).map
        (fun i => (chunks.getD i default).artifact_id)) [] := by
    simp only [aggregateScores]
    rw [foldScores_keys]
    simp only [List.map_nil, List.nil_append, List.map_map]
    rfl
  rw [hkeys] at hkey
  exact firstDedup_subset hkey

/-- **C10**: both rankers inspect only the 200 highest-similarity chunks:
whenever an artifact id appears on no chunk among the top 200 of the
descending similarity ranking, it is absent from the returned list —
regardless of k and even when its chunks have positive similarity. -/
theorem top200_chunk_cap (tfidf encode : String → List String → List ℚ)
    (query : String) (chunks : List Chunk) (k : Nat) (s : ModelState)
    (att : LoadOutcome) (a : Nat)
    (h200 : 200 < chunks.length)
    (hlen1 : (tfidf (pyStrip query) (chunks.map (fun c => c.text))).length = chunks.length)
    (hlen2 : (encode (pyStrip query) (chunks.map (fun c => c.text))).length = chunks.length)
    (ha1 : a ∉ ((argsortDesc (tfidf (pyStrip query) (chunks.map (fun c => c.text)))).take 200).map
        (fun i => (chunks.getD i default).artifact_id))
    (ha2 : a ∉ ((argsortDesc (encode (pyStrip query) (chunks.map (fun c => c.text)))).take 200).map
        (fun i => (chunks.getD i default).artifact_id)) :
    a ∉ keyword_retrieve tfidf query chunks k
    ∧ a ∉ (embedding_retrieve encode query chunks k s att).1 := by
  have hmin1 : min (argsortDesc (tfidf (pyStrip query) (chunks.map (fun c => c.text)))).length 200
      = 200 := by
    rw [argsortDesc_length, hlen1]
    omega
  have hmin2 : min (argsortDesc (encode (pyStrip query) (chunks.map (fun c => c.text)))).length 200
      = 200 := by
    rw [argsortDesc_length, hlen2]
    omega
  constructor
  · simp only [keyword_retrieve]
    by_cases hq : pyStrip query = ""
    · rw [if_pos hq]; simp
    · rw [if_neg hq]
      by_cases hc : chunks = []
      · rw [if_pos hc]; simp
      · rw [if_neg hc]
        apply not_mem_topK_of_not_in_cap
        rw [hmin1]
        exact ha1
  · rcases hg : get_model s att with ⟨m, s', entered⟩
    rcases m with _ | u
    · simp only [embedding_retrieve, hg]
      simp
    · simp only [embedding_retrieve, hg]
      by_cases hq : pyStrip query = ""
      · rw [if_pos hq]; simp
      · rw [if_neg hq]
        by_cases hc : chunks = []
        · rw [if_pos hc]; simp
        · rw [if_neg hc]
          apply not_mem_topK_of_not_in_cap
          rw [hmin2]
          exact ha2

set_option maxRecDepth 100000 in
/-- Witness for C10: a 201-chunk corpus where artifact 500 owns only the
lowest-similarity chunk (still strictly positive): it is excluded from both
rankers' results. -/
theorem top200_chunk_cap_witness :
    500 ∉ keyword_retrieve
        (fun _ _ => (List.range 201).map (fun i => if i = 200 then (1 : ℚ) else 2)) "q"
        ((List.range 201).map (fun i => ⟨i, if i = 200 then 500 else i, 0, "t"⟩)) 5
    ∧ 500 ∉ (embedding_retrieve
        (fun _ _ => (List.range 201).map (fun i => if i = 200 then (1 : ℚ) else 2)) "q"
        ((List.range 201).map (fun i => ⟨i, if i = 200 then 500 else i, 0, "t"⟩)) 5
        ⟨some (), false⟩ .ok).1 := by
  exact top200_chunk_cap _ _ "q" _ 5 ⟨some (), false⟩ .ok 500
    (by decide) (by decide) (by decide) (by decide) (by decide)

/-- **C4** (amended): once the generator client has been constructed, the
orchestrator never raises: a generator success returns its output verbatim
with mode tag "openai" (not "generated"), any generator failure yields the
deterministic fallback with mode tag "fallback" (the fallback is a total
function), and a missing control yields the "Control not found." sentinel,
also tagged "fallback". If the client constructor itself fails — it runs
BEFORE the `try` block — the exception propagates. -/
theorem report_orchestrator_modes (db : Db) (hy kw : Except String (List Nat))
    (gen : String → Except String String) (cid k n : Nat) :
    (∃ pair, generate_control_report db (.ok ()) hy kw gen cid k n = .ok pair)
    ∧ (∀ t, (∀ p, gen p = .ok t) →
        db.controls.find? (fun c => c.id == cid) ≠ none →
        generate_control_report db (.ok ()) hy kw gen cid k n = .ok (t, "openai"))
    ∧ ((∀ p, ∃ e, gen p = .error e) →
        ∃ r, generate_control_report db (.ok ()) hy kw gen cid k n = .ok (r, "fallback"))
    ∧ (db.controls.find? (fun c => c.id == cid) = none →
        generate_control_report db (.ok ()) hy kw gen cid k n =
          .ok ("Control not found.", "fallback"))
    ∧ (∀ e, generate_control_report db (.error e) hy kw gen cid k n = .error e) := by
  refine ⟨?_, ?_, ?_, ?_, fun e => rfl⟩
  · simp only [generate_control_report]
    rcases hf : db.controls.find? (fun c => c.id == cid) with _ | control
    · rw [hf]
      exact ⟨_, rfl⟩
    · rw [hf]
      dsimp only
      rcases hg : gen (build_prompt control
          (db.checklist_items.filter (fun it => it.control_id == cid))
          (report_context db (safe_get_artifact_ids hy kw) n)) with e | t
      · exact ⟨_, rfl⟩
      · exact ⟨_, rfl⟩
  · intro t hgen hfound
    simp only [generate_control_report]
    rcases hf : db.controls.find? (fun c => c.id == cid) with _ | control
    · exact absurd hf hfound
    · rw [hf]
      dsimp only
      rw [hgen]
  · intro hgen
    simp only [generate_control_report]
    rcases hf : db.controls.find? (fun c => c.id == cid) with _ | control
    · rw [hf]
      exact ⟨"Control not found.", rfl⟩
    · rw [hf]
      dsimp only
      obtain ⟨e, he⟩ := hgen (build_prompt control
        (db.checklist_items.filter (fun it => it.control_id == cid))
        (report_context db (safe_get_artifact_ids hy kw) n))
      rw [he]
      exact ⟨_, rfl⟩
  · intro hf
    simp only [generate_control_report]
    rw [hf]



/-- **C4** (counterexample): on generator success the mode tag is
"openai", not the claimed "generated"; and a failing client constructor
(e.g. `OpenAI()` raising because no API key is configured) escapes the
orchestrator, violating "never raises". -/
theorem report_mode_tag_counterexample :
    generate_control_report ⟨[⟨1, "CC6.1", "Access Control", "desc"⟩], [], [], []⟩
        (.ok ()) (.ok []) (.ok []) (fun _ => .ok "NARRATIVE") 1 5 2 =
      .ok ("NARRATIVE", "openai")
    ∧ "openai" ≠ "generated"
    ∧ generate_control_report ⟨[⟨1, "CC6.1", "Access Control", "desc"⟩], [], [], []⟩
        (.error "OPENAI_API_KEY not set") (.ok []) (.ok [])
        (fun _ => .ok "NARRATIVE") 1 5 2 = .error "OPENAI_API_KEY not set" := by
  refine ⟨rfl, by decide, rfl⟩

/-- Witness for C4's amended theorem at a concrete database and concrete
generator outcomes. -/
theorem report_orchestrator_modes_witness :
    generate_control_report ⟨[⟨1, "CC6.1", "Access Control", "desc"⟩], [], [], []⟩
        (.ok ()) (.ok []) (.ok []) (fun _ => .ok "NARRATIVE") 1 5 2 =
      .ok ("NARRATIVE", "openai")
    ∧ (∃ r, generate_control_report ⟨[⟨1, "CC6.1", "Access Control", "desc"⟩], [], [], []⟩
        (.ok ()) (.ok []) (.ok []) (fun _ => .error "quota") 1 5 2 =
      .ok (r, "fallback")) := by
  constructor
  · exact (report_orchestrator_modes ⟨[⟨1, "CC6.1", "Access Control", "desc"⟩], [], [], []⟩
      (.ok []) (.ok []) (fun _ => .ok "NARRATIVE") 1 5 2).2.1 "NARRATIVE"
      (fun p => rfl) (by decide)
  · exact (report_orchestrator_modes ⟨[⟨1, "CC6.1", "Access Control", "desc"⟩], [], [], []⟩
      (.ok []) (.ok []) (fun _ => .error "quota") 1 5 2).2.2.1
      (fun p => ⟨"quota", rfl⟩)

end AuditReadiness
